import Mathlib

/-!
# Verification of the todo-app core (Task / TaskRepository / TaskService)

Shallow embedding of the repository's three source files:
* `src/models/Task.js`        — immutable `Task` value object,
* `src/unnamed/part_000`      — `TaskRepository` (localStorage persistence),
* `src/services/TaskService.js` — business-logic layer.

Modelling conventions:
* JS strings are `List Char` (`JStr`); `String.prototype.trim` is
  `jsTrim` (drop JS whitespace from both ends), `toLowerCase` maps
  `Char.toLower` (the titles exercised here are ASCII),
  `String.prototype.includes` is `jsIncludes`.
* Values that may be non-strings at runtime (the `title` argument, the
  search term) are modelled by `JsVal`: either a string or `nonString`,
  the latter standing for any non-string JS value (number, object,
  `null`, `undefined`, boolean).  All of those fail the source's
  `!title || typeof title !== 'string'` test: falsy ones via `!title`,
  truthy ones via the `typeof` check, so one constructor suffices.
* `crypto.randomUUID()` and `Date.now()` are nondeterministic; an `Env`
  record carries the values they return.  Where a loop constructs many
  tasks, an `envs : Nat → Env` stream gives the values per iteration.
* JS `Map` (insertion-ordered, keyed by id) is an association list
  `List (JStr × Task)`; `mapGet / mapSet / mapDelete` mirror
  `Map.get / Map.set / Map.delete` including insertion-order behaviour
  (`set` of a fresh key appends, `set` of an existing key updates in
  place, re-inserting a deleted key appends at the end).
* `localStorage` is the `storage` field of `RepoState`, holding the
  parse result of the stored JSON blob (`none` = key absent).  JSON
  serialization is exact for these record arrays, so a blob is modelled
  by the record list it parses to; `JSON.stringify(x, null, 2)` (the
  pretty-printed export) parses back to the same records.
* A call to `localStorage.setItem` may throw (quota); each mutating
  operation takes an `ok : Bool` telling whether the store accepts
  writes during that call.
* Exceptions are `Except JsErr`; `JsErr` constructors follow the spec's
  taxonomy (ValidationError / InvalidArgument / NotFound /
  PersistenceError, plus `typeError` for calls to undefined methods).
  `Error(msg, { cause })` wrapping keeps the classification of the
  cause and prefixes the message (`wrapErr`).
* Mutating repository/service methods return
  `Except JsErr α × RepoState`: the thrown-or-returned outcome together
  with the state the repository object is left in (visible to later
  calls even when the operation threw).
-/

namespace TodoApp

/-- JS strings, as lists of characters. -/
abbrev JStr := List Char

/-- The JS whitespace characters relevant to `String.prototype.trim`
(space, tab, newline, carriage return). -/
def isWS (c : Char) : Bool :=
  c == ' ' || c == '\t' || c == '\n' || c == '\r'

/-- `String.prototype.trim`: drop whitespace from both ends. -/
def jsTrim (s : JStr) : JStr :=
  List.rdropWhile isWS (List.dropWhile isWS s)

/-- `String.prototype.toLowerCase` (ASCII). -/
def jsLower (s : JStr) : JStr := s.map Char.toLower

/-- `hay.includes(needle)` for JS strings. -/
def jsIncludes : JStr → JStr → Bool
  | [], needle => needle.isEmpty
  | c :: t, needle => needle.isPrefixOf (c :: t) || jsIncludes t needle

/-- A JS value in a position where the code checks
`typeof v !== 'string'`: either an actual string or any non-string
value (see module docstring). -/
inductive JsVal where
  | str (s : JStr)
  | nonString
deriving DecidableEq, Repr

/-- The error taxonomy (spec section 7).  The source throws `Error` /
`TypeError` with messages; constructors record which class of failure a
throw site belongs to, and `wrapErr` (for `new Error(msg, { cause })`)
preserves the class of the wrapped cause. -/
inductive JsErr where
  | validation (msg : String)
  | invalidArgument (msg : String)
  | notFound (msg : String)
  | persistence (msg : String)
  | typeError (msg : String)
deriving DecidableEq, Repr

/-- `new Error(p + e.message, { cause: e })`: prefix the message, keep
the classification of the cause. -/
def wrapErr (p : String) : JsErr → JsErr
  | .validation m => .validation (p ++ m)
  | .invalidArgument m => .invalidArgument (p ++ m)
  | .notFound m => .notFound (p ++ m)
  | .persistence m => .persistence (p ++ m)
  | .typeError m => .typeError (p ++ m)

/-- Values returned by the nondeterministic primitives during one task
construction: `crypto.randomUUID()` and `Date.now()`. -/
structure Env where
  genId : JStr
  now : Int
deriving Repr

/-- A persisted / parsed task record: the argument shape of the `Task`
constructor and the result shape of `toJSON()`.  `id = none` and
`createdAt = none` model the field being absent / `null` (the
constructor defaults). -/
structure TaskRecord where
  id : Option JStr
  title : JsVal
  completed : Bool
  createdAt : Option Int
  order : Int
deriving DecidableEq, Repr

/-- The immutable `Task` entity (`src/models/Task.js`): private fields
exposed through getters, all mutations return new instances. -/
structure Task where
  id : JStr
  title : JStr
  completed : Bool
  createdAt : Int
  order : Int
deriving DecidableEq, Repr

/-- The `Task` constructor (`src/models/Task.js` lines 17-31), including
`#validateTitle` (lines 55-70):
`!title || typeof title !== 'string'` rejects non-strings and the empty
string; the trimmed title must be non-empty and at most 200 characters.
On success: `id = id || generateId()`, `title = title.trim()`,
`createdAt = createdAt || Date.now()` (`0` and `null` are falsy). -/
def mkTask (env : Env) (r : TaskRecord) : Except JsErr Task :=
  match r.title with
  | .nonString => .error (.validation "Titulo e obrigatorio e deve ser uma string")
  | .str s =>
    if s = [] then .error (.validation "Titulo e obrigatorio e deve ser uma string")
    else
      let t := jsTrim s
      if t = [] then .error (.validation "Titulo nao pode ser vazio")
      else if t.length > 200 then .error (.validation "Titulo nao pode exceder 200 caracteres")
      else .ok
        { id := match r.id with
            | none => env.genId
            | some i => if i = [] then env.genId else i
          title := t
          completed := r.completed
          createdAt := match r.createdAt with
            | none => env.now
            | some c => if c = 0 then env.now else c
          order := r.order }

/-- `task.toJSON()`. -/
def Task.toJSON (t : Task) : TaskRecord :=
  { id := some t.id, title := .str t.title, completed := t.completed,
    createdAt := some t.createdAt, order := t.order }

/-- `Task.fromJSON(data)` = `new Task(data)`. -/
def Task.fromJSON (env : Env) (r : TaskRecord) : Except JsErr Task :=
  mkTask env r

/-- `task.updateTitle(newTitle)`: re-runs the constructor with the new
title and the current id/completed/createdAt/order. -/
def Task.updateTitle (env : Env) (t : Task) (newTitle : JsVal) : Except JsErr Task :=
  mkTask env { id := some t.id, title := newTitle, completed := t.completed,
               createdAt := some t.createdAt, order := t.order }

/-- `task.updateOrder(newOrder)`. -/
def Task.updateOrder (env : Env) (t : Task) (newOrder : Int) : Except JsErr Task :=
  mkTask env { id := some t.id, title := .str t.title, completed := t.completed,
               createdAt := some t.createdAt, order := newOrder }

/-- `task.toggleCompleted()`. -/
def Task.toggleCompleted (env : Env) (t : Task) : Except JsErr Task :=
  mkTask env { id := some t.id, title := .str t.title, completed := !t.completed,
               createdAt := some t.createdAt, order := t.order }

/-- The title invariant established by the constructor: trimmed,
non-empty, at most 200 characters. -/
def TitleOK (s : JStr) : Prop :=
  jsTrim s = s ∧ s ≠ [] ∧ s.length ≤ 200

instance (s : JStr) : Decidable (TitleOK s) := by
  unfold TitleOK; infer_instance

/-- Well-formedness of a `Task` value: exactly what holds of every task
produced by the constructor (truthy id, truthy createdAt, valid title).
Every task reachable in the running program satisfies this. -/
def Task.WF (t : Task) : Prop :=
  t.id ≠ [] ∧ t.createdAt ≠ 0 ∧ TitleOK t.title

instance (t : Task) : Decidable t.WF := by
  unfold Task.WF; infer_instance

/-! ## JS `Map` on association lists -/

/-- `map.get(k)` (as an `Option`; JS returns `undefined` when absent). -/
def mapGet (l : List (JStr × Task)) (k : JStr) : Option Task :=
  (l.find? (fun p => p.1 == k)).map (fun p => p.2)

/-- `map.set(k, v)`: update in place when the key is present, append
otherwise (JS `Map` insertion-order semantics). -/
def mapSet (l : List (JStr × Task)) (k : JStr) (v : Task) : List (JStr × Task) :=
  if l.any (fun p => p.1 == k) then
    l.map (fun p => if p.1 == k then (k, v) else p)
  else l ++ [(k, v)]

/-- `map.delete(k)` (the resulting map; the boolean result is recovered
via `mapGet`). -/
def mapDelete (l : List (JStr × Task)) (k : JStr) : List (JStr × Task) :=
  l.filter (fun p => !(p.1 == k))

/-! ## TaskRepository (`src/unnamed/part_000`) -/

/-- The observable state of a `TaskRepository`: the in-memory `#tasks`
map and the `localStorage` blob under `#storageKey` (modelled by its
parse result; `none` = key absent). -/
structure RepoState where
  tasks : List (JStr × Task)
  storage : Option (List TaskRecord)
deriving DecidableEq, Repr

/-- Well-formedness of a repository state: every entry is keyed by its
task's id, keys are distinct (a `Map` cannot hold duplicate keys), and
every stored task satisfies the constructor invariant.  All states
reachable through the repository's interface satisfy this. -/
def RepoState.WF (st : RepoState) : Prop :=
  (∀ p ∈ st.tasks, p.1 = p.2.id ∧ p.2.WF) ∧ (st.tasks.map Prod.fst).Nodup

instance (st : RepoState) : Decidable st.WF := by
  unfold RepoState.WF; infer_instance

/-- The serialized form of the current map:
`Array.from(this.#tasks.values()).map(task => task.toJSON())`. -/
def persistRecords (st : RepoState) : List TaskRecord :=
  st.tasks.map (fun p => p.2.toJSON)

/-- `#persist()` (lines 71-89): write the serialized map to
`localStorage`; `ok = false` means `setItem` throws (e.g. quota), which
`#persist` rethrows as a persistence failure. -/
def persist (ok : Bool) (st : RepoState) : Except JsErr RepoState :=
  if ok then .ok { st with storage := some (persistRecords st) }
  else .error (.persistence "Falha ao salvar no localStorage")

namespace TaskRepository

/-- `save(task)` (lines 98-119).  `#validateTask` checks
`task instanceof Task`, which the typed embedding guarantees.  Inserts
or replaces by id, persists, and on persistence failure rolls back:
deletes the id when the task was new, restores the previous version
otherwise. -/
def save (ok : Bool) (st : RepoState) (task : Task) :
    Except JsErr Task × RepoState :=
  let previousTask := mapGet st.tasks task.id
  let st1 : RepoState := { st with tasks := mapSet st.tasks task.id task }
  match persist ok st1 with
  | .ok st2 => (.ok task, st2)
  | .error e =>
    let rolled := match previousTask with
      | none => mapDelete st1.tasks task.id
      | some p => mapSet st1.tasks task.id p
    (.error (wrapErr "Falha ao salvar a tarefa " e), { st1 with tasks := rolled })

/-- `exists(id)` (lines 121-123). -/
def existsId (st : RepoState) (id : JStr) : Bool :=
  (mapGet st.tasks id).isSome

/-- `findAll()` (lines 125-129): the stored tasks in insertion order.
The source returns `Task.fromJSON(task.toJSON())` for each — a
defensive deep copy; since every stored task satisfies `Task.WF`, that
copy reconstructs an equal `Task` (`mkTask_toJSON_of_wf` below), and
Lean values cannot be mutated through references, so the copy is
modelled as the task itself. -/
def findAll (st : RepoState) : List Task :=
  st.tasks.map (fun p => p.2)

/-- `findBy(predicate)` (lines 131-137).  The
`typeof predicate !== 'function'` guard is discharged by typing. -/
def findBy (st : RepoState) (predicate : Task → Bool) : List Task :=
  (findAll st).filter predicate

/-- `findById(id)` (lines 139-142); same defensive-copy note as
`findAll`. -/
def findById (st : RepoState) (id : JStr) : Option Task :=
  mapGet st.tasks id

/-- `delete(id)` (lines 144-159): `false` when absent; otherwise remove
and persist, re-inserting the removed task (at the end of the map) on
persistence failure. -/
def delete (ok : Bool) (st : RepoState) (id : JStr) :
    Except JsErr Bool × RepoState :=
  match mapGet st.tasks id with
  | none => (.ok false, st)
  | some taskToDelete =>
    let st1 : RepoState := { st with tasks := mapDelete st.tasks id }
    match persist ok st1 with
    | .ok st2 => (.ok true, st2)
    | .error e =>
      (.error (wrapErr "Falha ao persistir: " e),
       { st1 with tasks := mapSet st1.tasks id taskToDelete })

/-- The deletion loop of `deleteMany` (lines 170-175): process the ids
in order, counting the deletes that succeed. -/
def deleteLoop : List (JStr × Task) → List JStr → List (JStr × Task) × Nat
  | l, [] => (l, 0)
  | l, id :: rest =>
    if (mapGet l id).isSome then
      let r := deleteLoop (mapDelete l id) rest
      (r.1, r.2 + 1)
    else deleteLoop l rest

/-- `deleteMany(ids)` (lines 161-186).  The `Array.isArray` guard is
discharged by typing.  Snapshot, delete each id counting hits, skip
persistence when nothing was deleted, otherwise persist and restore the
snapshot on failure. -/
def deleteMany (ok : Bool) (st : RepoState) (ids : List JStr) :
    Except JsErr Nat × RepoState :=
  let previousTasks := st.tasks
  let r := deleteLoop st.tasks ids
  if r.2 = 0 then (.ok 0, { st with tasks := r.1 })
  else
    match persist ok { st with tasks := r.1 } with
    | .ok st2 => (.ok r.2, st2)
    | .error e =>
      (.error (wrapErr "Falha ao remover multiplas tarefas: " e),
       { st with tasks := previousTasks })

/-- `clear()` (lines 193-210): `0` immediately when empty (no
persistence call); otherwise empty the map, persist, restore the
snapshot on failure. -/
def clear (ok : Bool) (st : RepoState) : Except JsErr Nat × RepoState :=
  let previousTasks := st.tasks
  let count := st.tasks.length
  if count = 0 then (.ok 0, st)
  else
    match persist ok { st with tasks := [] } with
    | .ok st2 => (.ok count, st2)
    | .error e =>
      (.error (wrapErr "Falha ao limpar armazenamento: " e),
       { st with tasks := previousTasks })

/-- `saveMany(tasks)` (lines 212-234).  The `Array.isArray` and
per-element `#validateTask` guards are discharged by typing; each task
is `set` into the map, then one persist; the whole snapshot is restored
on failure. -/
def saveMany (ok : Bool) (st : RepoState) (tasks : List Task) :
    Except JsErr Nat × RepoState :=
  let backupTasks := st.tasks
  let newTasks := tasks.foldl (fun acc t => mapSet acc t.id t) st.tasks
  match persist ok { st with tasks := newTasks } with
  | .ok st2 => (.ok tasks.length, st2)
  | .error e =>
    (.error (wrapErr "Falha ao salvar multiplas tarefas: " e),
     { st with tasks := backupTasks })

/-- `export()` (lines 236-241): `JSON.stringify(tasksArray, null, 2)`.
Pure read; the pretty-printed text is modelled by the record array it
parses back to (serialization is exact on these records). -/
def exportTasks (st : RepoState) : List TaskRecord :=
  persistRecords st

/-- A JSON text passed to `import`, modelled by its parse result:
an array of task records, a parsable non-array value, or unparsable
text (`JSON.parse` throws `SyntaxError`). -/
inductive JsonText where
  | arr (records : List TaskRecord)
  | nonArray
  | invalid
deriving DecidableEq, Repr

/-- The `tempMap` construction loop of `import` (lines 249-253):
`Task.fromJSON` each record (any failure aborts the whole import) and
`set` it into a fresh map.  `envs i` gives the nondeterministic values
for the `i`-th construction. -/
def buildTempMap (envs : Nat → Env) :
    Nat → List (JStr × Task) → List TaskRecord →
    Except JsErr (List (JStr × Task))
  | _, acc, [] => .ok acc
  | i, acc, r :: rs =>
    match Task.fromJSON (envs i) r with
    | .error e => .error e
    | .ok task => buildTempMap envs (i + 1) (mapSet acc task.id task) rs

/-- `import(jsonString)` (lines 243-265).  Parse (SyntaxError → caught,
wrapped), require an array, construct every record into a fresh map,
write the new array to `localStorage` directly (`setItem`), install the
new map and `#persist()` (writing the same content again), returning
the new size; on any failure restore the pre-call map.  `ok` governs
both `setItem` calls of the same invocation. -/
def importTasks (envs : Nat → Env) (ok : Bool) (st : RepoState)
    (j : JsonText) : Except JsErr Nat × RepoState :=
  let previousTasks := st.tasks
  match j with
  | .invalid =>
    (.error (wrapErr "Falha ao importar tarefas: "
        (.validation "Dados corrompidos: JSON invalido")),
     { st with tasks := previousTasks })
  | .nonArray =>
    (.error (wrapErr "Falha ao importar tarefas: "
        (.validation "JSON invalido: esperado um array de tasks")),
     { st with tasks := previousTasks })
  | .arr records =>
    match buildTempMap envs 0 [] records with
    | .error e =>
      (.error (wrapErr "Falha ao importar tarefas: " e),
       { st with tasks := previousTasks })
    | .ok tempMap =>
      if ok then
        -- `setItem` writes the new array, then `this.#tasks = tempMap`
        -- and `#persist()` serializes and writes the same array again
        -- (the double write the spec flags as an open question); with a
        -- working store both writes succeed.
        let raw := tempMap.map (fun p => p.2.toJSON)
        let st1 : RepoState := { tasks := tempMap, storage := some raw }
        (.ok tempMap.length, { st1 with storage := some (persistRecords st1) })
      else
        (.error (wrapErr "Falha ao importar tarefas: "
            (.persistence "Falha ao salvar no localStorage")),
         { st with tasks := previousTasks })

/-- The result record of `getStats()`. -/
structure Stats where
  total : Nat
  completed : Nat
  pending : Nat
  completionRate : String
deriving DecidableEq, Repr

/-- `((completed / total) * 100).toFixed(1) + '%'` (line 285), computed
over exact rationals: round `completed * 1000 / total` half-up to an
integer `n` and print `n / 10 . n % 10 %`.  Exact at every value where
the double computation is (in particular at `1 / 3`). -/
def toFixed1Percent (completed total : Nat) : String :=
  let n := (completed * 1000 * 2 + total) / (2 * total)
  toString (n / 10) ++ "." ++ toString (n % 10) ++ "%"

/-- `getStats()` (lines 271-288): pure read; counts completed tasks,
formats the completion rate to one decimal with a `%` suffix, `"0%"`
for an empty repository. -/
def getStats (st : RepoState) : Stats :=
  let total := st.tasks.length
  let completedCount := (st.tasks.filter (fun p => p.2.completed)).length
  { total := total
    completed := completedCount
    pending := total - completedCount
    completionRate :=
      if total > 0 then toFixed1Percent completedCount total else "0%" }

/-- The public methods `TaskRepository` actually defines
(`src/unnamed/part_000`, lines 98-288).  Note the absence of `count`
and `countBy`. -/
def methodNames : List String :=
  ["save", "exists", "findAll", "findBy", "findById", "delete",
   "deleteMany", "clear", "saveMany", "export", "import", "getStats"]

end TaskRepository

/-! ## TaskService (`src/services/TaskService.js`)

The service holds an injected repository; here the repository is the
concrete `TaskRepository` above, so a service call is a function of the
repository's `RepoState`. -/

namespace TaskService

/-- Dynamic method dispatch on the injected repository:
`this.#repository.m(...)` throws
`TypeError: this.#repository.m is not a function` when the repository
object defines no method `m`. -/
def requireMethod (name : String) : Except JsErr Unit :=
  if TaskRepository.methodNames.contains name then .ok ()
  else .error (.typeError (name ++ " is not a function"))

/-- `#ensureTaskExists(taskId)` (lines 64-70): `findById`, throwing when
absent. -/
def ensureTaskExists (st : RepoState) (taskId : JStr) : Except JsErr Task :=
  match TaskRepository.findById st taskId with
  | none => .error (.notFound "Task nao encontrada")
  | some t => .ok t

/-- The `updates` argument of `updateTask`: each field either absent
(`undefined`) or supplied.  `title` may be any JS value (it is passed to
the `Task` constructor unchecked); `completed` is modelled as a boolean
(the strict comparison `updates.completed !== currentTask.completed` on
booleans). -/
structure TaskUpdates where
  title : Option JsVal
  completed : Option Bool
  order : Option Int
deriving Repr

/-- Step 1 of the update chain (lines 83-85):
`if (updates.title !== undefined) updatedTask = updatedTask.updateTitle(...)`. -/
def titleStep (env : Env) (currentTask : Task) (u : TaskUpdates) :
    Except JsErr Task :=
  match u.title with
  | some newTitle => Task.updateTitle env currentTask newTitle
  | none => .ok currentTask

/-- Step 2 of the update chain (lines 86-91): the toggle is applied only
when `updates.completed` is defined and differs from the *current*
task's value (`currentTask.completed`, not the intermediate task's —
the title step does not change `completed`, so the two agree). -/
def toggleStep (env : Env) (currentTask t1 : Task) (u : TaskUpdates) :
    Except JsErr Task :=
  match u.completed with
  | some c =>
    if c ≠ currentTask.completed then Task.toggleCompleted env t1
    else .ok t1
  | none => .ok t1

/-- Step 3 of the update chain (lines 92-94). -/
def orderStep (env : Env) (t2 : Task) (u : TaskUpdates) :
    Except JsErr Task :=
  match u.order with
  | some o => Task.updateOrder env t2 o
  | none => .ok t2

/-- The update chain of `updateTask` (lines 83-94): title first, then
the completed toggle, then order, each step producing a new `Task`
through the constructor; the first failure aborts the chain. -/
def applyUpdates (env : Env) (currentTask : Task) (u : TaskUpdates) :
    Except JsErr Task :=
  match titleStep env currentTask u with
  | .error e => .error e
  | .ok t1 =>
    match toggleStep env currentTask t1 u with
    | .error e => .error e
    | .ok t2 => orderStep env t2 u

/-- Wrap a repository `save` outcome the way the `try`/`catch` of
`updateTask` does (lines 97-101): errors get the contextual message,
the state of the repository is whatever `save` left. -/
def saveWrapped (p : Except JsErr Task × RepoState) :
    Except JsErr Task × RepoState :=
  (p.1.mapError (wrapErr "Falha ao atualizar task: "), p.2)

/-- `updateTask(taskId, updates)` (lines 77-102): ensure existence
(NotFound outside the `try`), apply the update chain, save the final
task; failures inside the `try` are wrapped with the contextual
message. -/
def updateTask (env : Env) (ok : Bool) (st : RepoState) (taskId : JStr)
    (u : TaskUpdates) : Except JsErr Task × RepoState :=
  match ensureTaskExists st taskId with
  | .error e => (.error e, st)
  | .ok currentTask =>
    match applyUpdates env currentTask u with
    | .error e => (.error (wrapErr "Falha ao atualizar task: " e), st)
    | .ok updatedTask => saveWrapped (TaskRepository.save ok st updatedTask)

/-- The batch-building `map` of `reorderTasks` (lines 127-130): for each
`{id, order}` ensure the id exists and build the reordered task; the
first failure aborts the whole call before anything is saved. -/
def buildReorder (env : Env) (st : RepoState) :
    List (JStr × Int) → Except JsErr (List Task)
  | [] => .ok []
  | (id, ord) :: rest =>
    match ensureTaskExists st id with
    | .error e => .error e
    | .ok task =>
      match Task.updateOrder env task ord with
      | .error e => .error e
      | .ok t =>
        match buildReorder env st rest with
        | .error e => .error e
        | .ok ts => .ok (t :: ts)

/-- `reorderTasks(reorderedTasks)` (lines 122-133): `TypeError` for a
non-array (`none` models any non-array argument), then build the whole
batch — checking existence — and only then delegate to `saveMany`. -/
def reorderTasks (env : Env) (ok : Bool) (st : RepoState)
    (input : Option (List (JStr × Int))) : Except JsErr Nat × RepoState :=
  match input with
  | none => (.error (.invalidArgument "reorderedTasks deve ser um array"), st)
  | some reorderedTasks =>
    match buildReorder env st reorderedTasks with
    | .error e => (.error e, st)
    | .ok tasksToUpdate => TaskRepository.saveMany ok st tasksToUpdate

/-- `searchTasks(searchTerm)` (lines 174-184): empty result for falsy or
non-string input; otherwise case-insensitive substring match of the
trimmed term against the titles, via `findBy`. -/
def searchTasks (st : RepoState) (searchTerm : JsVal) : List Task :=
  match searchTerm with
  | .nonString => []
  | .str s =>
    if s = [] then []
    else
      let normalizedTerm := jsLower (jsTrim s)
      TaskRepository.findBy st
        (fun task => jsIncludes (jsLower task.title) normalizedTerm)

/-- The completion-rate formula of `getStatistics` (lines 190-191):
`total > 0 ? Math.round((completed / total) * 100) : 0`, over exact
rationals (`Math.round` = floor of `x + 1/2` for non-negative `x`).
The enclosing method never reaches this computation — see
`getStatistics`. -/
def serviceCompletionRate (completed total : Nat) : Nat :=
  if total > 0 then (completed * 100 * 2 + total) / (2 * total) else 0

/-- The result record `getStatistics` is written to produce. -/
structure Statistics where
  total : Nat
  completed : Nat
  pending : Nat
  completionRate : Nat
deriving DecidableEq, Repr

/-- `getStatistics()` (lines 186-194): its first step is
`this.#repository.count()`, and `TaskRepository` defines no `count`
method (`TaskRepository.methodNames`), so the call throws a `TypeError`
before anything else runs; the arithmetic on the remaining lines
(`serviceCompletionRate`) is unreachable, which the second match arm
records by also failing. -/
def getStatistics (_st : RepoState) : Except JsErr Statistics :=
  match requireMethod "count" with
  | .error e => .error e
  | .ok _ =>
    match requireMethod "countBy" with
    | .error e => .error e
    | .ok _ => .error (.typeError "unreachable: no count or countBy body exists")

/-- `hasTask()` (lines 196-198): `this.#repository.count() > 0`; same
missing-method failure as `getStatistics`. -/
def hasTask (_st : RepoState) : Except JsErr Bool :=
  match requireMethod "count" with
  | .error e => .error e
  | .ok _ => .error (.typeError "unreachable: no count body exists")

/-- `hasCompletedTasks()` (lines 200-202): `this.#repository.countBy(...) > 0`. -/
def hasCompletedTasks (_st : RepoState) : Except JsErr Bool :=
  match requireMethod "countBy" with
  | .error e => .error e
  | .ok _ => .error (.typeError "unreachable: no countBy body exists")

/-- `hasPendingTasks()` (lines 204-206). -/
def hasPendingTasks (_st : RepoState) : Except JsErr Bool :=
  match requireMethod "countBy" with
  | .error e => .error e
  | .ok _ => .error (.typeError "unreachable: no countBy body exists")

end TaskService

/-! ## Specification-side predicates

Used to state the claims; each is compared against the behaviour of the
source-derived definitions above. -/

/-- A title argument the constructor rejects: non-string, empty, blank
after trimming, or longer than 200 characters after trimming. -/
def badTitleInput : JsVal → Bool
  | .nonString => true
  | .str s => s.isEmpty || (jsTrim s).isEmpty || decide ((jsTrim s).length > 200)

/-- A title argument the constructor accepts. -/
def validTitleInput : JsVal → Bool
  | .nonString => false
  | .str s => !s.isEmpty && !(jsTrim s).isEmpty && decide ((jsTrim s).length ≤ 200)

/-- The all-or-nothing outcome required of a mutating repository call
whose persistence step failed: a `PersistenceError` is raised, the
in-memory collection (`findAll` reads `tasks` in insertion order) holds
exactly the same tasks as before the call, and the storage blob is
untouched. -/
def RollbackOutcome {α : Type} (pre : RepoState)
    (r : Except JsErr α × RepoState) : Prop :=
  (∃ m, r.1 = .error (.persistence m)) ∧
  List.Perm r.2.tasks pre.tasks ∧ r.2.storage = pre.storage

/-- The title the final task of `updateTask` carries: the trimmed
requested title when a string title was supplied, the previous title
otherwise. -/
def requestedTitle (ut : Option JsVal) (fallback : JStr) : JStr :=
  match ut with
  | some (.str s) => jsTrim s
  | some .nonString => fallback
  | none => fallback

/-- The field-level description of the task `updateTask` finally saves,
given the pre-update task `t0` and the requested `updates`: id and
createdAt are preserved, `completed` and `order` take the requested
values when supplied, and the title becomes the trimmed requested title
when supplied. -/
def UpdatedFields (t0 : Task) (u : TaskService.TaskUpdates) (tf : Task) : Prop :=
  tf.id = t0.id ∧ tf.createdAt = t0.createdAt ∧
  tf.completed = u.completed.getD t0.completed ∧
  tf.order = u.order.getD t0.order ∧
  tf.title = requestedTitle u.title t0.title

/-- The `(id, title, completed, createdAt, order)` content of a
repository state, as a list of records in insertion order; two states
have identical content as multisets when these lists are permutations
of one another. -/
def contentOf (st : RepoState) : List TaskRecord :=
  st.tasks.map (fun p => p.2.toJSON)

/-! ## Concrete data used by the witness theorems -/

/-- A fixed stream of generator values. -/
def wEnvs : Nat → Env := fun _ => ⟨"gen-uuid".toList, 111⟩

def wTask1 : Task :=
  { id := "a".toList, title := "Alpha".toList, completed := false,
    createdAt := 5, order := 0 }

def wTask2 : Task :=
  { id := "b".toList, title := "Beta".toList, completed := true,
    createdAt := 6, order := 1 }

def wTask3 : Task :=
  { id := "c".toList, title := "Buy milk".toList, completed := false,
    createdAt := 7, order := 2 }

/-- A two-task repository state. -/
def wState : RepoState :=
  { tasks := [(wTask1.id, wTask1), (wTask2.id, wTask2)], storage := none }

/-- A three-task repository state (one completed), also holding the
"Buy milk" task used by the search claims. -/
def wState3 : RepoState :=
  { tasks := [(wTask1.id, wTask1), (wTask2.id, wTask2), (wTask3.id, wTask3)],
    storage := none }

/-- A task whose `createdAt` is the falsy timestamp `0`. -/
def wTask0 : Task :=
  { id := "z".toList, title := "Zero".toList, completed := false,
    createdAt := 0, order := 0 }

/-- `t` with its `createdAt` replaced by `now` (what reconstruction of a
falsy-`createdAt` record produces). -/
def stampTask (t : Task) (now : Int) : Task :=
  { id := t.id, title := t.title, completed := t.completed,
    createdAt := now, order := t.order }

/-! ## Lemmas: the string model -/

theorem dropWhile_jsTrim (s : JStr) :
    List.dropWhile isWS (jsTrim s) = jsTrim s := by
  unfold jsTrim
  rw [List.dropWhile_eq_self_iff]
  intro hl
  have hp : List.rdropWhile isWS (List.dropWhile isWS s) <+: List.dropWhile isWS s :=
    List.rdropWhile_prefix _ _
  have hl2 : 0 < (List.dropWhile isWS s).length := lt_of_lt_of_le hl hp.length_le
  have hhead := List.dropWhile_get_zero_not isWS s hl2
  simp only [List.get_eq_getElem] at hhead ⊢
  rwa [List.IsPrefix.getElem hp hl]

theorem jsTrim_idem (s : JStr) : jsTrim (jsTrim s) = jsTrim s := by
  show List.rdropWhile isWS (List.dropWhile isWS (jsTrim s)) = jsTrim s
  rw [dropWhile_jsTrim]
  show List.rdropWhile isWS (List.rdropWhile isWS (List.dropWhile isWS s)) = _
  rw [List.rdropWhile_idempotent]
  rfl

theorem jsTrim_eq_nil (s : JStr) (h : ∀ c ∈ s, isWS c) : jsTrim s = [] := by
  show List.rdropWhile isWS (List.dropWhile isWS s) = []
  rw [List.dropWhile_eq_nil_iff.mpr h]
  simp [List.rdropWhile]

theorem jsIncludes_nil (hay : JStr) : jsIncludes hay [] = true := by
  cases hay with
  | nil => rfl
  | cons c t => simp [jsIncludes, List.isPrefixOf]

/-! ## Lemmas: the Task constructor -/

/-- Success characterization of the constructor: when the title is an
acceptable string, construction succeeds and each field is as the
constructor assigns it. -/
theorem mkTask_ok (env : Env) (r : TaskRecord) (s : JStr)
    (hs : r.title = .str s) (h1 : s ≠ []) (h2 : jsTrim s ≠ [])
    (h3 : (jsTrim s).length ≤ 200) :
    mkTask env r = .ok
      { id := match r.id with
          | none => env.genId
          | some i => if i = [] then env.genId else i
        title := jsTrim s
        completed := r.completed
        createdAt := match r.createdAt with
          | none => env.now
          | some c => if c = 0 then env.now else c
        order := r.order } := by
  simp [mkTask, hs, h1, h2, Nat.not_lt.mpr h3]

/-- The defensive copy `Task.fromJSON(task.toJSON())` used by
`findAll`/`findById` reconstructs a well-formed task exactly. -/
theorem mkTask_toJSON_of_wf (env : Env) (t : Task) (h : t.WF) :
    mkTask env t.toJSON = .ok t := by
  obtain ⟨hid, hca, htrim, hne, hlen⟩ := h
  rw [mkTask_ok env t.toJSON t.title rfl hne
    (by rw [htrim]; exact hne) (by rw [htrim]; exact hlen)]
  cases t with
  | mk tid ttitle tc tca tord =>
    simp only at hid hca htrim
    simp [Task.toJSON, hid, hca, htrim]

/-- Every task the constructor returns carries a trimmed, non-empty
title of at most 200 characters. -/
theorem mkTask_ok_titleOK (env : Env) (r : TaskRecord) (t : Task)
    (h : mkTask env r = .ok t) : TitleOK t.title := by
  unfold mkTask at h
  cases hr : r.title with
  | nonString => rw [hr] at h; exact absurd h (by simp)
  | str s =>
    rw [hr] at h
    simp only at h
    by_cases h1 : s = []
    · simp [h1] at h
    · rw [if_neg h1] at h
      by_cases h2 : jsTrim s = []
      · simp [h2] at h
      · rw [if_neg h2] at h
        by_cases h3 : (jsTrim s).length > 200
        · simp [h3] at h
        · rw [if_neg h3] at h
          injection h with h
          subst h
          exact ⟨jsTrim_idem s, h2, Nat.not_lt.mp h3⟩

/-- Construction fails with a `ValidationError` on every bad title
input. -/
theorem mkTask_error_of_badTitle (env : Env) (r : TaskRecord)
    (h : badTitleInput r.title = true) :
    ∃ m, mkTask env r = .error (.validation m) := by
  cases hr : r.title with
  | nonString =>
    exact ⟨"Titulo e obrigatorio e deve ser uma string", by simp [mkTask, hr]⟩
  | str s =>
    rw [hr] at h
    simp only [badTitleInput, Bool.or_eq_true, List.isEmpty_iff,
      decide_eq_true_eq] at h
    by_cases h1 : s = []
    · exact ⟨"Titulo e obrigatorio e deve ser uma string", by simp [mkTask, hr, h1]⟩
    · by_cases h2 : jsTrim s = []
      · exact ⟨"Titulo nao pode ser vazio", by simp [mkTask, hr, h1, h2]⟩
      · have h3 : (jsTrim s).length > 200 := by tauto
        exact ⟨"Titulo nao pode exceder 200 caracteres",
          by simp [mkTask, hr, h1, h2, h3]⟩

/-! ## Lemmas: the map model -/

theorem map_id_mem {α : Type} (l : List α) (f : α → α)
    (h : ∀ a ∈ l, f a = a) : l.map f = l := by
  induction l with
  | nil => rfl
  | cons a t ih =>
    rw [List.map_cons, h a (List.mem_cons_self a t),
      ih (fun b hb => h b (List.mem_cons_of_mem a hb))]

theorem mapGet_eq_none_iff (l : List (JStr × Task)) (k : JStr) :
    mapGet l k = none ↔ ∀ p ∈ l, p.1 ≠ k := by
  unfold mapGet
  rw [Option.map_eq_none', List.find?_eq_none]
  simp only [beq_iff_eq]

theorem mapGet_eq_some (l : List (JStr × Task)) (k : JStr) (p : Task)
    (h : mapGet l k = some p) : ∃ q ∈ l, q.1 = k ∧ q.2 = p := by
  unfold mapGet at h
  cases hf : l.find? (fun q => q.1 == k) with
  | none => rw [hf] at h; cases h
  | some q =>
    rw [hf] at h
    refine ⟨q, List.mem_of_find?_eq_some hf, ?_, ?_⟩
    · have := List.find?_some hf
      simpa using this
    · simpa using h

theorem mapGet_unique (l : List (JStr × Task)) (k : JStr) (p : Task)
    (hnd : (l.map Prod.fst).Nodup) (h : mapGet l k = some p) :
    ∀ q ∈ l, q.1 = k → q = (k, p) := by
  obtain ⟨q0, hq0mem, hq0k, hq0p⟩ := mapGet_eq_some l k p h
  intro q hq hqk
  have hqq0 : q = q0 :=
    List.inj_on_of_nodup_map hnd hq hq0mem (by rw [hqk, hq0k])
  subst hqq0
  cases q with
  | mk qa qb =>
    simp only at hqk hq0p
    rw [hqk, hq0p]

theorem mapSet_fresh (l : List (JStr × Task)) (k : JStr) (v : Task)
    (h : ∀ p ∈ l, p.1 ≠ k) : mapSet l k v = l ++ [(k, v)] := by
  unfold mapSet
  rw [if_neg]
  simp only [List.any_eq_true, beq_iff_eq, not_exists, not_and]
  exact fun p hp => h p hp

theorem mapSet_of_mem (l : List (JStr × Task)) (k : JStr) (v : Task)
    (h : ∃ q ∈ l, q.1 = k) :
    mapSet l k v = l.map (fun q => if q.1 == k then (k, v) else q) := by
  unfold mapSet
  rw [if_pos]
  simp only [List.any_eq_true, beq_iff_eq]
  exact h

theorem mapDelete_fresh (l : List (JStr × Task)) (k : JStr)
    (h : ∀ p ∈ l, p.1 ≠ k) : mapDelete l k = l :=
  List.filter_eq_self.mpr (fun p hp => by simp [h p hp])

theorem mapDelete_append_fresh (l : List (JStr × Task)) (k : JStr) (v : Task)
    (h : ∀ p ∈ l, p.1 ≠ k) : mapDelete (l ++ [(k, v)]) k = l := by
  unfold mapDelete
  rw [List.filter_append]
  have h1 : l.filter (fun p => !(p.1 == k)) = l :=
    List.filter_eq_self.mpr (fun p hp => by simp [h p hp])
  simp [h1, mapDelete]

/-- Rolling back a `save` that overwrote an existing entry: writing the
previous task back restores the map exactly. -/
theorem mapSet_restore (l : List (JStr × Task)) (k : JStr) (v p : Task)
    (hnd : (l.map Prod.fst).Nodup) (h : mapGet l k = some p) :
    mapSet (mapSet l k v) k p = l := by
  obtain ⟨q0, hm, hk, hp⟩ := mapGet_eq_some l k p h
  rw [mapSet_of_mem l k v ⟨q0, hm, hk⟩]
  rw [mapSet_of_mem _ k p
    ⟨(k, v), List.mem_map.mpr ⟨q0, hm, by simp [hk]⟩, rfl⟩]
  rw [List.map_map]
  refine map_id_mem l _ (fun q hq => ?_)
  by_cases hqk : q.1 = k
  · have hq' := mapGet_unique l k p hnd h q hq hqk
    simp [Function.comp, hqk, hq'.symm]
  · simp [Function.comp, hqk]

/-- Rolling back a `delete`: re-inserting the removed task (which lands
at the end of the map) restores the original map up to permutation. -/
theorem mapDelete_restore_perm (l : List (JStr × Task)) (k : JStr) (p : Task)
    (hnd : (l.map Prod.fst).Nodup) (h : mapGet l k = some p) :
    List.Perm (mapDelete l k ++ [(k, p)]) l := by
  induction l with
  | nil => exact Option.noConfusion h
  | cons q t ih =>
    rw [List.map_cons, List.nodup_cons] at hnd
    by_cases hqk : q.1 = k
    · have hfind : mapGet (q :: t) k = some q.2 := by
        simp [mapGet, List.find?_cons, hqk]
      rw [hfind] at h
      have hp : q.2 = p := by simpa using h
      have hnomem : ∀ r ∈ t, r.1 ≠ k := by
        intro r hr hrk
        exact hnd.1 (by rw [hqk, ← hrk]; exact List.mem_map_of_mem _ hr)
      have hfilter : t.filter (fun r => !(r.1 == k)) = t :=
        List.filter_eq_self.mpr (fun r hr => by simp [hnomem r hr])
      have hdel : mapDelete (q :: t) k = t := by
        simp [mapDelete, List.filter_cons, hqk, hfilter]
      rw [hdel]
      have hq' : (k, p) = q := by
        cases q with
        | mk qa qb => simp only at hqk hp; rw [hqk, hp]
      rw [hq']
      exact List.perm_append_singleton q t
    · have hget : mapGet t k = some p := by
        have hb : (q.1 == k) = false := by simp [hqk]
        unfold mapGet at h ⊢
        rw [List.find?_cons] at h
        simp only [hb] at h
        exact h
      have hdel : mapDelete (q :: t) k = q :: mapDelete t k := by
        simp [mapDelete, List.filter_cons, hqk]
      rw [hdel, List.cons_append]
      exact List.Perm.cons q (ih hnd.2 hget)

/-- A run of the deletion loop that hits at least one present id deletes
at least one entry. -/
theorem deleteLoop_count_pos (l : List (JStr × Task)) (ids : List JStr)
    (h : ∃ i ∈ ids, (mapGet l i).isSome) :
    (TaskRepository.deleteLoop l ids).2 ≠ 0 := by
  induction ids generalizing l with
  | nil => simp at h
  | cons i rest ih =>
    unfold TaskRepository.deleteLoop
    by_cases hi : (mapGet l i).isSome
    · simp [hi]
    · rw [if_neg hi]
      refine ih l ?_
      obtain ⟨j, hj, hjs⟩ := h
      rcases List.mem_cons.mp hj with rfl | hj'
      · exact absurd hjs hi
      · exact ⟨j, hj', hjs⟩

/-! ## Lemmas: rollback of each mutating repository method -/

theorem save_rollback (st : RepoState) (task : Task)
    (hnd : (st.tasks.map Prod.fst).Nodup) :
    RollbackOutcome st (TaskRepository.save false st task) := by
  unfold RollbackOutcome
  cases hprev : mapGet st.tasks task.id with
  | none =>
    have hfresh := (mapGet_eq_none_iff st.tasks task.id).mp hprev
    have hroll : mapDelete (mapSet st.tasks task.id task) task.id = st.tasks := by
      rw [mapSet_fresh st.tasks task.id task hfresh]
      exact mapDelete_append_fresh st.tasks task.id task hfresh
    refine ⟨⟨"Falha ao salvar a tarefa " ++ "Falha ao salvar no localStorage", ?_⟩, ?_, ?_⟩
    · simp [TaskRepository.save, persist, hprev, wrapErr]
    · simp only [TaskRepository.save, persist, hprev]
      simp [hroll]
    · simp [TaskRepository.save, persist, hprev]
  | some p =>
    have hroll : mapSet (mapSet st.tasks task.id task) task.id p = st.tasks :=
      mapSet_restore st.tasks task.id task p hnd hprev
    refine ⟨⟨"Falha ao salvar a tarefa " ++ "Falha ao salvar no localStorage", ?_⟩, ?_, ?_⟩
    · simp [TaskRepository.save, persist, hprev, wrapErr]
    · simp only [TaskRepository.save, persist, hprev]
      simp [hroll]
    · simp [TaskRepository.save, persist, hprev]

theorem delete_rollback (st : RepoState) (id : JStr) (p : Task)
    (hnd : (st.tasks.map Prod.fst).Nodup) (hid : mapGet st.tasks id = some p) :
    RollbackOutcome st (TaskRepository.delete false st id) := by
  unfold RollbackOutcome
  have hperm := mapDelete_restore_perm st.tasks id p hnd hid
  have hfresh : ∀ q ∈ mapDelete st.tasks id, q.1 ≠ id := by
    intro q hq
    have := (List.mem_filter.mp hq).2
    simpa using this
  have hset : mapSet (mapDelete st.tasks id) id p
      = mapDelete st.tasks id ++ [(id, p)] :=
    mapSet_fresh _ id p hfresh
  refine ⟨⟨"Falha ao persistir: " ++ "Falha ao salvar no localStorage", ?_⟩, ?_, ?_⟩
  · simp [TaskRepository.delete, persist, hid, wrapErr]
  · simp only [TaskRepository.delete, persist, hid]
    simp only [hset]
    simpa using hperm
  · simp [TaskRepository.delete, persist, hid]

theorem deleteMany_rollback (st : RepoState) (ids : List JStr)
    (h : ∃ i ∈ ids, (mapGet st.tasks i).isSome) :
    RollbackOutcome st (TaskRepository.deleteMany false st ids) := by
  unfold RollbackOutcome
  have hc := deleteLoop_count_pos st.tasks ids h
  simp only [TaskRepository.deleteMany]
  rw [if_neg hc]
  refine ⟨⟨"Falha ao remover multiplas tarefas: " ++ "Falha ao salvar no localStorage", ?_⟩, ?_, ?_⟩ <;>
    simp [persist, wrapErr]

theorem clear_rollback (st : RepoState) (hne : st.tasks ≠ []) :
    RollbackOutcome st (TaskRepository.clear false st) := by
  unfold RollbackOutcome
  have hlen : st.tasks.length ≠ 0 := by
    simpa [List.length_eq_zero] using hne
  simp only [TaskRepository.clear]
  rw [if_neg hlen]
  refine ⟨⟨"Falha ao limpar armazenamento: " ++ "Falha ao salvar no localStorage", ?_⟩, ?_, ?_⟩ <;>
    simp [persist, wrapErr]

theorem saveMany_rollback (st : RepoState) (tasks : List Task) :
    RollbackOutcome st (TaskRepository.saveMany false st tasks) := by
  unfold RollbackOutcome
  refine ⟨⟨"Falha ao salvar multiplas tarefas: " ++ "Falha ao salvar no localStorage", ?_⟩, ?_, ?_⟩ <;>
    simp [TaskRepository.saveMany, persist, wrapErr]

theorem import_rollback (st : RepoState) (envs : Nat → Env)
    (records : List TaskRecord) (tempMap : List (JStr × Task))
    (hbuild : TaskRepository.buildTempMap envs 0 [] records = .ok tempMap) :
    RollbackOutcome st (TaskRepository.importTasks envs false st (.arr records)) := by
  unfold RollbackOutcome
  simp only [TaskRepository.importTasks, hbuild]
  refine ⟨⟨"Falha ao importar tarefas: " ++ "Falha ao salvar no localStorage", ?_⟩, ?_, ?_⟩ <;>
    simp [wrapErr]

/-! ## The claims -/

/-- **C1**: Atomicity of mutating Repository operations. With the
persistence step failing (`ok = false`), each mutating method of
`TaskRepository` — `save`, `delete` (of a present id), `deleteMany`
(hitting at least one present id), `clear` (of a non-empty repository),
`saveMany`, and `import` (of a parsable record array) — raises a
`PersistenceError` and leaves the in-memory collection observed via
`findAll()` identical in content (a permutation of the entries, exact
equality except for `delete`) to its pre-call snapshot, and the storage
blob untouched: no partial mutation is observable.  The side
conditions delimit the cases in which the method reaches its
persistence step at all (`delete` of an absent id, `deleteMany` with no
hit and `clear` of an empty repository return without persisting and
leave the state untouched by definition). -/
theorem c1_mutating_ops_atomic (st : RepoState) (task : Task) (id : JStr)
    (p : Task) (ids : List JStr) (tasks : List Task) (envs : Nat → Env)
    (records : List TaskRecord) (tempMap : List (JStr × Task))
    (hwf : st.WF)
    (hid : mapGet st.tasks id = some p)
    (hids : ∃ i ∈ ids, (mapGet st.tasks i).isSome)
    (hne : st.tasks ≠ [])
    (hbuild : TaskRepository.buildTempMap envs 0 [] records = .ok tempMap) :
    RollbackOutcome st (TaskRepository.save false st task) ∧
    RollbackOutcome st (TaskRepository.delete false st id) ∧
    RollbackOutcome st (TaskRepository.deleteMany false st ids) ∧
    RollbackOutcome st (TaskRepository.clear false st) ∧
    RollbackOutcome st (TaskRepository.saveMany false st tasks) ∧
    RollbackOutcome st (TaskRepository.importTasks envs false st (.arr records)) :=
  ⟨save_rollback st task hwf.2, delete_rollback st id p hwf.2 hid,
   deleteMany_rollback st ids hids, clear_rollback st hne,
   saveMany_rollback st tasks, import_rollback st envs records tempMap hbuild⟩

/-- Witness for C1 at a concrete two-task state. -/
theorem c1_mutating_ops_atomic_witness :
    RollbackOutcome wState (TaskRepository.save false wState wTask3) ∧
    RollbackOutcome wState (TaskRepository.delete false wState wTask1.id) ∧
    RollbackOutcome wState (TaskRepository.deleteMany false wState [wTask1.id]) ∧
    RollbackOutcome wState (TaskRepository.clear false wState) ∧
    RollbackOutcome wState (TaskRepository.saveMany false wState [wTask3]) ∧
    RollbackOutcome wState
      (TaskRepository.importTasks wEnvs false wState
        (.arr (TaskRepository.exportTasks wState))) :=
  c1_mutating_ops_atomic wState wTask3 wTask1.id wTask1 [wTask1.id] [wTask3]
    wEnvs (TaskRepository.exportTasks wState) wState.tasks
    (by decide) (by decide) (by decide) (by decide) (by rfl)

/-- **C2** (code bug): for a repository holding exactly 3 tasks of which
exactly 1 is completed, `TaskRepository.getStats()` does return
`completionRate = "33.3%"` with counts 3/1/2 — but
`TaskService.getStatistics()` does not return `completionRate = 33`:
it throws a `TypeError` at its first step because the injected
`TaskRepository` defines no `count`/`countBy` method, even though the
formula written on its own lines 190-191 (`serviceCompletionRate`)
would evaluate to 33. -/
theorem c2_statistics_three_tasks :
    TaskRepository.getStats wState3 =
      { total := 3, completed := 1, pending := 2, completionRate := "33.3%" } ∧
    TaskService.serviceCompletionRate 1 3 = 33 ∧
    TaskService.getStatistics wState3 =
      .error (.typeError "count is not a function") := by
  refine ⟨by decide, by decide, rfl⟩

/-- **C3**: over the provided `TaskRepository`, every call to
`getStatistics`, `hasTask`, `hasCompletedTasks` or `hasPendingTasks`
raises (a `TypeError` naming the missing method) instead of returning a
value, for every repository state, because these methods invoke
`repository.count()` / `repository.countBy(...)` and `TaskRepository`
defines neither method. -/
theorem c3_aggregate_queries_always_raise (st : RepoState) :
    TaskService.getStatistics st = .error (.typeError "count is not a function") ∧
    TaskService.hasTask st = .error (.typeError "count is not a function") ∧
    TaskService.hasCompletedTasks st = .error (.typeError "countBy is not a function") ∧
    TaskService.hasPendingTasks st = .error (.typeError "countBy is not a function") ∧
    "count" ∉ TaskRepository.methodNames ∧
    "countBy" ∉ TaskRepository.methodNames :=
  ⟨rfl, rfl, rfl, rfl, by decide, by decide⟩

/-- **C7**: every `Task` that can be constructed — through the
constructor itself or any of the constructor-calling operations
(`updateTitle`, `updateOrder`, `toggleCompleted`, `fromJSON`) — has a
trimmed, non-empty title of at most 200 characters (`TitleOK`), and
construction fails with a `ValidationError` on every missing,
non-string, empty-after-trim or over-200-characters-after-trim title,
so no `Task` with an invalid title can exist. -/
theorem c7_title_invariant :
    (∀ env r t, mkTask env r = .ok t → TitleOK t.title) ∧
    (∀ env r, badTitleInput r.title = true →
      ∃ m, mkTask env r = .error (.validation m)) ∧
    (∀ env t nt t2, Task.updateTitle env t nt = .ok t2 → TitleOK t2.title) ∧
    (∀ env t o t2, Task.updateOrder env t o = .ok t2 → TitleOK t2.title) ∧
    (∀ env t t2, Task.toggleCompleted env t = .ok t2 → TitleOK t2.title) ∧
    (∀ env r t, Task.fromJSON env r = .ok t → TitleOK t.title) :=
  ⟨fun env r t h => mkTask_ok_titleOK env r t h,
   fun env r h => mkTask_error_of_badTitle env r h,
   fun env _ _ t2 h => mkTask_ok_titleOK env _ t2 h,
   fun env _ _ t2 h => mkTask_ok_titleOK env _ t2 h,
   fun env _ t2 h => mkTask_ok_titleOK env _ t2 h,
   fun env r t h => mkTask_ok_titleOK env r t h⟩

/-- Witness for C7: a concrete successful construction yields a valid
title, and a concrete empty title is rejected. -/
theorem c7_title_invariant_witness :
    TitleOK (jsTrim ("  Buy milk  ".toList)) ∧
    ∃ m, mkTask (wEnvs 0)
      { id := some ("a".toList), title := .str [], completed := false,
        createdAt := some 1, order := 0 } = .error (.validation m) :=
  ⟨c7_title_invariant.1 (wEnvs 0)
      { id := some ("a".toList), title := .str ("  Buy milk  ".toList),
        completed := false, createdAt := some 1, order := 0 }
      { id := "a".toList, title := jsTrim ("  Buy milk  ".toList),
        completed := false, createdAt := 1, order := 0 }
      (by rfl),
   c7_title_invariant.2.1 (wEnvs 0)
      { id := some ("a".toList), title := .str [], completed := false,
        createdAt := some 1, order := 0 }
      (by decide)⟩

/-- **C8**: the `searchTasks` contract.  Any non-string term and the
empty string give an empty result without raising; every non-empty
string term returns exactly the stored tasks whose title contains the
trimmed term as a case-insensitive substring; in particular
`searchTasks("MiLk")` on a store holding "Buy milk" returns exactly
that task. -/
theorem c8_searchTasks_contract (st : RepoState) (s : JStr) (hs : s ≠ []) :
    TaskService.searchTasks st .nonString = [] ∧
    TaskService.searchTasks st (.str []) = [] ∧
    TaskService.searchTasks st (.str s) =
      (TaskRepository.findAll st).filter
        (fun task => jsIncludes (jsLower task.title) (jsLower (jsTrim s))) ∧
    TaskService.searchTasks wState3 (.str ("MiLk".toList)) = [wTask3] := by
  refine ⟨rfl, rfl, ?_, by decide⟩
  simp [TaskService.searchTasks, hs, TaskRepository.findBy]

/-- Witness for C8 at the concrete term "MiLk". -/
theorem c8_searchTasks_contract_witness :
    TaskService.searchTasks wState3 .nonString = [] ∧
    TaskService.searchTasks wState3 (.str []) = [] ∧
    TaskService.searchTasks wState3 (.str ("MiLk".toList)) =
      (TaskRepository.findAll wState3).filter
        (fun task => jsIncludes (jsLower task.title)
          (jsLower (jsTrim ("MiLk".toList)))) ∧
    TaskService.searchTasks wState3 (.str ("MiLk".toList)) = [wTask3] :=
  c8_searchTasks_contract wState3 ("MiLk".toList) (by decide)

/-- **C9**: a whitespace-only but non-empty search term does not give an
empty result: it trims to the empty string, the substring test then
holds for every title, and `searchTasks` returns every stored task (the
copies `findAll` produces). -/
theorem c9_blank_search_returns_all (st : RepoState) (s : JStr)
    (h1 : s ≠ []) (h2 : ∀ c ∈ s, isWS c) :
    TaskService.searchTasks st (.str s) = TaskRepository.findAll st := by
  have ht : jsTrim s = [] := jsTrim_eq_nil s h2
  simp [TaskService.searchTasks, h1, ht, jsLower, TaskRepository.findBy]
  exact fun a _ => jsIncludes_nil _

/-- Witness for C9 at the term " " (one space). -/
theorem c9_blank_search_returns_all_witness :
    TaskService.searchTasks wState3 (.str (" ".toList)) =
      TaskRepository.findAll wState3 :=
  c9_blank_search_returns_all wState3 (" ".toList) (by decide) (by decide)

/-! ## Lemmas: well-formed tasks through the task-copying operations -/

theorem wf_of_mapGet (st : RepoState) (hwf : st.WF) (k : JStr) (t : Task)
    (h : mapGet st.tasks k = some t) : t.WF := by
  obtain ⟨q, hq, _, hq2⟩ := mapGet_eq_some st.tasks k t h
  exact hq2 ▸ (hwf.1 q hq).2

/-- Re-running the constructor on a well-formed task's data with a new
`completed`/`order` keeps the identity fields. -/
theorem mkTask_keep_fields (env : Env) (t : Task) (c : Bool) (o : Int)
    (h : t.WF) :
    mkTask env { id := some t.id, title := .str t.title, completed := c,
                 createdAt := some t.createdAt, order := o }
      = .ok { id := t.id, title := t.title, completed := c,
              createdAt := t.createdAt, order := o } := by
  obtain ⟨hid, hca, htrim, hne, hlen⟩ := h
  rw [mkTask_ok env _ t.title rfl hne (by rw [htrim]; exact hne)
    (by rw [htrim]; exact hlen)]
  simp [hid, hca, htrim]

theorem updateOrder_of_wf (env : Env) (t : Task) (o : Int) (h : t.WF) :
    Task.updateOrder env t o
      = .ok { id := t.id, title := t.title, completed := t.completed,
              createdAt := t.createdAt, order := o } :=
  mkTask_keep_fields env t t.completed o h

theorem toggleCompleted_of_wf (env : Env) (t : Task) (h : t.WF) :
    Task.toggleCompleted env t
      = .ok { id := t.id, title := t.title, completed := !t.completed,
              createdAt := t.createdAt, order := t.order } :=
  mkTask_keep_fields env t (!t.completed) t.order h

theorem updateTitle_of_wf (env : Env) (t : Task) (s : JStr) (hwf : t.WF)
    (h1 : s ≠ []) (h2 : jsTrim s ≠ []) (h3 : (jsTrim s).length ≤ 200) :
    Task.updateTitle env t (.str s)
      = .ok { id := t.id, title := jsTrim s, completed := t.completed,
              createdAt := t.createdAt, order := t.order } := by
  unfold Task.updateTitle
  rw [mkTask_ok env _ s rfl h1 h2 h3]
  simp [hwf.1, hwf.2.1]

/-- The batch builder of `reorderTasks` fails with `NotFound` as soon as
an input id is absent, whatever comes before it. -/
theorem buildReorder_notFound (env : Env) (st : RepoState)
    (l : List (JStr × Int)) (hwf : st.WF)
    (h : ∃ p ∈ l, mapGet st.tasks p.1 = none) :
    TaskService.buildReorder env st l
      = .error (.notFound "Task nao encontrada") := by
  induction l with
  | nil => simp at h
  | cons q rest ih =>
    obtain ⟨id, ord⟩ := q
    cases hg : mapGet st.tasks id with
    | none =>
      simp [TaskService.buildReorder, TaskService.ensureTaskExists,
        TaskRepository.findById, hg]
    | some t =>
      have htwf : t.WF := wf_of_mapGet st hwf id t hg
      have h' : ∃ p ∈ rest, mapGet st.tasks p.1 = none := by
        obtain ⟨p, hp, hpn⟩ := h
        rcases List.mem_cons.mp hp with rfl | hp'
        · rw [hg] at hpn; cases hpn
        · exact ⟨p, hp', hpn⟩
      simp [TaskService.buildReorder, TaskService.ensureTaskExists,
        TaskRepository.findById, hg, updateOrder_of_wf env t ord htwf, ih h']

/-- **C5**: `reorderTasks` existence-check ordering: whenever the input
list references an id absent from the repository, the call fails with
`NotFound` and the repository state — the in-memory collection and the
storage blob — is returned exactly as it was: `saveMany` is never
reached, so no task's order is even partially updated and nothing is
persisted. -/
theorem c5_reorder_missing_id_atomic (env : Env) (ok : Bool)
    (st : RepoState) (l : List (JStr × Int)) (hwf : st.WF)
    (h : ∃ p ∈ l, mapGet st.tasks p.1 = none) :
    TaskService.reorderTasks env ok st (some l)
      = (.error (.notFound "Task nao encontrada"), st) := by
  simp [TaskService.reorderTasks, buildReorder_notFound env st l hwf h]

/-- Witness for C5: `reorderTasks([{id:"missing", order:0}])` on the
concrete three-task state. -/
theorem c5_reorder_missing_id_atomic_witness :
    TaskService.reorderTasks (wEnvs 0) true wState3
        (some [("missing".toList, 0)])
      = (.error (.notFound "Task nao encontrada"), wState3) :=
  c5_reorder_missing_id_atomic (wEnvs 0) true wState3 [("missing".toList, 0)]
    (by decide) (by decide)

/-! ## Lemmas: the import construction loop on exported data -/

/-- Rebuilding a well-formed, nodup-keyed entry list from its exported
records reproduces it exactly, appended to any accumulator whose keys
are disjoint from it. -/
theorem buildTempMap_clone (envs : Nat → Env) (l : List (JStr × Task))
    (acc : List (JStr × Task)) (i : Nat)
    (hwf : ∀ p ∈ l, p.1 = p.2.id ∧ p.2.WF)
    (hnd : (l.map Prod.fst).Nodup)
    (hdisj : ∀ p ∈ l, ∀ q ∈ acc, q.1 ≠ p.1) :
    TaskRepository.buildTempMap envs i acc (l.map (fun p => p.2.toJSON))
      = .ok (acc ++ l) := by
  induction l generalizing acc i with
  | nil => simp [TaskRepository.buildTempMap]
  | cons p rest ih =>
    rw [List.map_cons, List.nodup_cons] at hnd
    have hp := hwf p (List.mem_cons_self p rest)
    have hclone : Task.fromJSON (envs i) p.2.toJSON = .ok p.2 :=
      mkTask_toJSON_of_wf (envs i) p.2 hp.2
    have hfresh : ∀ q ∈ acc, q.1 ≠ p.2.id := by
      intro q hq
      have := hdisj p (List.mem_cons_self p rest) q hq
      rwa [hp.1] at this
    have hpp : (p.2.id, p.2) = p := by
      cases p with
      | mk pa pb => simp only at hp ⊢; rw [hp.1]
    have hdisj2 : ∀ p2 ∈ rest, ∀ q ∈ acc ++ [p], q.1 ≠ p2.1 := by
      intro p2 hp2 q hq
      rcases List.mem_append.mp hq with hqa | hqp
      · exact hdisj p2 (List.mem_cons_of_mem p hp2) q hqa
      · have : q = p := by simpa using hqp
        subst this
        intro hcontra
        exact hnd.1 (by rw [hcontra]; exact List.mem_map_of_mem _ hp2)
    rw [List.map_cons]
    simp only [TaskRepository.buildTempMap, hclone,
      mapSet_fresh acc p.2.id p.2 hfresh, hpp]
    rw [ih (acc ++ [p]) (i + 1)
      (fun q hq => hwf q (List.mem_cons_of_mem p hq)) hnd.2 hdisj2]
    rw [List.append_assoc]
    rfl

/-- **C4**: export/import round-trip.  For every well-formed stored
collection, `import()` applied to the parse of the text `export()`
produced succeeds, returns the new collection size, and yields a
collection whose list of `(id, title, completed, createdAt, order)`
records is a permutation of (in fact equal to) the original's,
regardless of the original insertion order. -/
theorem c4_export_import_roundtrip (st : RepoState) (envs : Nat → Env)
    (hwf : st.WF) :
    TaskRepository.importTasks envs true st
        (.arr (TaskRepository.exportTasks st))
      = (.ok st.tasks.length,
         { tasks := st.tasks, storage := some (TaskRepository.exportTasks st) }) ∧
    List.Perm
      (contentOf { tasks := st.tasks,
                   storage := some (TaskRepository.exportTasks st) })
      (contentOf st) := by
  have hbuild : TaskRepository.buildTempMap envs 0 []
      (List.map (fun p => p.2.toJSON) st.tasks) = .ok st.tasks :=
    buildTempMap_clone envs st.tasks [] 0 hwf.1 hwf.2 (by simp)
  constructor
  · simp [TaskRepository.importTasks, hbuild, persist, persistRecords,
      TaskRepository.exportTasks]
  · exact List.Perm.refl _

/-- Witness for C4 at the concrete two-task state. -/
theorem c4_export_import_roundtrip_witness :
    TaskRepository.importTasks wEnvs true wState
        (.arr (TaskRepository.exportTasks wState))
      = (.ok wState.tasks.length,
         { tasks := wState.tasks,
           storage := some (TaskRepository.exportTasks wState) }) ∧
    List.Perm
      (contentOf { tasks := wState.tasks,
                   storage := some (TaskRepository.exportTasks wState) })
      (contentOf wState) :=
  c4_export_import_roundtrip wState wEnvs (by decide)

/-! ## Lemmas: constructor inversion and the falsy-field defaults -/

/-- Full inversion of a successful construction: the produced task is
exactly the record the constructor assembles. -/
theorem mkTask_ok_inv (env : Env) (r : TaskRecord) (t : Task)
    (h : mkTask env r = .ok t) :
    ∃ s, r.title = .str s ∧
      t = { id := match r.id with
              | none => env.genId
              | some i => if i = [] then env.genId else i
            title := jsTrim s
            completed := r.completed
            createdAt := match r.createdAt with
              | none => env.now
              | some c => if c = 0 then env.now else c
            order := r.order } := by
  unfold mkTask at h
  cases hr : r.title with
  | nonString => rw [hr] at h; exact absurd h (by simp)
  | str s =>
    refine ⟨s, rfl, ?_⟩
    rw [hr] at h
    simp only at h
    by_cases h1 : s = []
    · simp [h1] at h
    · rw [if_neg h1] at h
      by_cases h2 : jsTrim s = []
      · simp [h2] at h
      · rw [if_neg h2] at h
        by_cases h3 : (jsTrim s).length > 200
        · simp [h3] at h
        · rw [if_neg h3] at h
          injection h with h
          exact h.symm

/-- The defensive copy of a task whose `createdAt` is the falsy `0`
does not reproduce it: `createdAt` becomes the current time. -/
theorem mkTask_toJSON_createdAt0 (env : Env) (t : Task)
    (htitle : TitleOK t.title) (hid : t.id ≠ []) (hca : t.createdAt = 0) :
    mkTask env t.toJSON
      = .ok { id := t.id, title := t.title, completed := t.completed,
              createdAt := env.now, order := t.order } := by
  obtain ⟨htrim, hne, hlen⟩ := htitle
  rw [mkTask_ok env t.toJSON t.title rfl hne (by rw [htrim]; exact hne)
    (by rw [htrim]; exact hlen)]
  simp [Task.toJSON, hid, hca, htrim]

/-- **C10**: Task construction replaces falsy identity fields with
generated values: a falsy `id` (absent/null or the empty string) is
replaced by a fresh UUID, a falsy `createdAt` (absent/null or the
timestamp `0`) by the current time; consequently, on a collection
containing a record with `createdAt = 0`, `export()` followed by
`import()` does not preserve that record's `createdAt` (the imported
task carries `Date.now()` instead). -/
theorem c10_falsy_identity_fields :
    (∀ env r t, (r.id = none ∨ r.id = some []) → mkTask env r = .ok t →
      t.id = env.genId) ∧
    (∀ env r t, (r.createdAt = none ∨ r.createdAt = some 0) →
      mkTask env r = .ok t → t.createdAt = env.now) ∧
    (∀ (envs : Nat → Env) (t : Task), TitleOK t.title → t.id ≠ [] →
      t.createdAt = 0 → (envs 0).now ≠ 0 →
      TaskRepository.importTasks envs true
          { tasks := [(t.id, t)], storage := none }
          (.arr (TaskRepository.exportTasks
            { tasks := [(t.id, t)], storage := none }))
        = (.ok 1,
           { tasks := [(t.id, stampTask t ((envs 0).now))],
             storage := some [(stampTask t ((envs 0).now)).toJSON] }) ∧
      (envs 0).now ≠ t.createdAt) := by
  refine ⟨?_, ?_, ?_⟩
  · intro env r t hfalsy h
    obtain ⟨s, _, rfl⟩ := mkTask_ok_inv env r t h
    rcases hfalsy with h0 | h0 <;> simp [h0]
  · intro env r t hfalsy h
    obtain ⟨s, _, rfl⟩ := mkTask_ok_inv env r t h
    rcases hfalsy with h0 | h0 <;> simp [h0]
  · intro envs t htitle hid hca hnow
    have hclone := mkTask_toJSON_createdAt0 (envs 0) t htitle hid hca
    have hclone2 : mkTask (envs 0)
        { id := some t.id, title := JsVal.str t.title,
          completed := t.completed, createdAt := some t.createdAt,
          order := t.order }
      = .ok (stampTask t ((envs 0).now)) := hclone
    constructor
    · simp [TaskRepository.importTasks, TaskRepository.buildTempMap,
        TaskRepository.exportTasks, persistRecords, Task.fromJSON, hclone2,
        mapSet, persist, Task.toJSON, stampTask]
    · rw [hca]; exact hnow

/-- Witness for C10: the empty-string id is replaced by the generated
UUID, `createdAt = 0` is replaced by the current time, and the
export/import round-trip of a collection holding a `createdAt = 0` task
rewrites that field. -/
theorem c10_falsy_identity_fields_witness :
    ({ id := "gen-uuid".toList, title := "Hi".toList, completed := false,
       createdAt := 3, order := 0 } : Task).id = (wEnvs 0).genId ∧
    ({ id := "z".toList, title := "Hi".toList, completed := false,
       createdAt := 111, order := 0 } : Task).createdAt = (wEnvs 0).now ∧
    (TaskRepository.importTasks wEnvs true
        { tasks := [(wTask0.id, wTask0)], storage := none }
        (.arr (TaskRepository.exportTasks
          { tasks := [(wTask0.id, wTask0)], storage := none }))
      = (.ok 1,
         { tasks := [(wTask0.id, stampTask wTask0 ((wEnvs 0).now))],
           storage := some [(stampTask wTask0 ((wEnvs 0).now)).toJSON] }) ∧
      (wEnvs 0).now ≠ wTask0.createdAt) :=
  ⟨c10_falsy_identity_fields.1 (wEnvs 0)
      { id := some [], title := .str ("Hi".toList), completed := false,
        createdAt := some 3, order := 0 } _ (Or.inr rfl) (by rfl),
   c10_falsy_identity_fields.2.1 (wEnvs 0)
      { id := some ("z".toList), title := .str ("Hi".toList),
        completed := false, createdAt := some 0, order := 0 } _
      (Or.inr rfl) (by rfl),
   c10_falsy_identity_fields.2.2 wEnvs wTask0 (by decide) (by decide)
     (by decide) (by decide)⟩

/-! ## Lemmas: the update chain of `updateTask` -/

/-- The title step applied to a well-formed task with an acceptable
requested title: succeeds, rewrites only the title. -/
theorem titleStep_of_wf (env : Env) (t0 : Task) (u : TaskService.TaskUpdates)
    (hwf : t0.WF) (ht : u.title.all validTitleInput = true) :
    ∃ t1, TaskService.titleStep env t0 u = .ok t1 ∧
      t1.id = t0.id ∧ t1.title = requestedTitle u.title t0.title ∧
      t1.completed = t0.completed ∧ t1.createdAt = t0.createdAt ∧
      t1.order = t0.order ∧ t1.WF := by
  cases hu : u.title with
  | none =>
    exact ⟨t0, by simp [TaskService.titleStep, hu], rfl,
      by simp [requestedTitle, hu], rfl, rfl, rfl, hwf⟩
  | some v =>
    rw [hu] at ht
    cases v with
    | nonString => simp [Option.all, validTitleInput] at ht
    | str s =>
      simp only [Option.all, validTitleInput, Bool.and_eq_true,
        Bool.not_eq_true', List.isEmpty_eq_false, decide_eq_true_eq] at ht
      obtain ⟨⟨hs1, hs2⟩, hs3⟩ := ht
      refine ⟨{ id := t0.id, title := jsTrim s, completed := t0.completed,
                createdAt := t0.createdAt, order := t0.order },
        ?_, rfl, by simp [requestedTitle], rfl, rfl, rfl, ?_⟩
      · simp only [TaskService.titleStep, hu]
        exact updateTitle_of_wf env t0 s hwf hs1 hs2 hs3
      · exact ⟨hwf.1, hwf.2.1, jsTrim_idem s, hs2, hs3⟩

/-- The toggle step applied to an intermediate task agreeing with the
current task on `completed`: succeeds, sets `completed` to the
requested value. -/
theorem toggleStep_of_wf (env : Env) (t0 t1 : Task)
    (u : TaskService.TaskUpdates) (h1wf : t1.WF)
    (h1comp : t1.completed = t0.completed) :
    ∃ t2, TaskService.toggleStep env t0 t1 u = .ok t2 ∧
      t2.id = t1.id ∧ t2.title = t1.title ∧
      t2.completed = u.completed.getD t0.completed ∧
      t2.createdAt = t1.createdAt ∧ t2.order = t1.order ∧ t2.WF := by
  cases hu : u.completed with
  | none =>
    exact ⟨t1, by simp [TaskService.toggleStep, hu], rfl, rfl,
      by simp [h1comp], rfl, rfl, h1wf⟩
  | some c =>
    by_cases hc : c = t0.completed
    · refine ⟨t1, ?_, rfl, rfl, ?_, rfl, rfl, h1wf⟩
      · simp [TaskService.toggleStep, hu, hc]
      · simp [h1comp, hc]
    · refine ⟨{ id := t1.id, title := t1.title, completed := !t1.completed,
                createdAt := t1.createdAt, order := t1.order },
        ?_, rfl, rfl, ?_, rfl, rfl, ?_⟩
      · simp only [TaskService.toggleStep, hu]
        rw [if_pos (by simpa using hc)]
        exact toggleCompleted_of_wf env t1 h1wf
      · show (!t1.completed) = Option.getD (some c) t0.completed
        rw [h1comp]
        cases c <;> cases h0 : t0.completed <;> simp_all
      · exact ⟨h1wf.1, h1wf.2.1, h1wf.2.2⟩

/-- The order step: succeeds on a well-formed task, sets `order` to the
requested value. -/
theorem orderStep_of_wf (env : Env) (t2 : Task)
    (u : TaskService.TaskUpdates) (h2wf : t2.WF) :
    ∃ t3, TaskService.orderStep env t2 u = .ok t3 ∧
      t3.id = t2.id ∧ t3.title = t2.title ∧ t3.completed = t2.completed ∧
      t3.createdAt = t2.createdAt ∧ t3.order = u.order.getD t2.order ∧
      t3.WF := by
  cases hu : u.order with
  | none => exact ⟨t2, by simp [TaskService.orderStep, hu], rfl, rfl, rfl,
      rfl, by simp, h2wf⟩
  | some o =>
    refine ⟨{ id := t2.id, title := t2.title, completed := t2.completed,
              createdAt := t2.createdAt, order := o },
      ?_, rfl, rfl, rfl, rfl, by simp, ?_⟩
    · simp only [TaskService.orderStep, hu]
      exact updateOrder_of_wf env t2 o h2wf
    · exact ⟨h2wf.1, h2wf.2.1, h2wf.2.2⟩

/-- The three-step update chain applied to a well-formed task with an
acceptable requested title succeeds and produces exactly the task
described by `UpdatedFields`, itself well-formed. -/
theorem applyUpdates_of_wf (env : Env) (t0 : Task)
    (u : TaskService.TaskUpdates) (hwf : t0.WF)
    (ht : u.title.all validTitleInput = true) :
    ∃ tf, TaskService.applyUpdates env t0 u = .ok tf ∧
      UpdatedFields t0 u tf ∧ tf.WF := by
  obtain ⟨t1, h1, h1id, h1title, h1comp, h1ca, h1ord, h1wf⟩ :=
    titleStep_of_wf env t0 u hwf ht
  obtain ⟨t2, h2, h2id, h2title, h2comp, h2ca, h2ord, h2wf⟩ :=
    toggleStep_of_wf env t0 t1 u h1wf h1comp
  obtain ⟨t3, h3, h3id, h3title, h3comp, h3ca, h3ord, h3wf⟩ :=
    orderStep_of_wf env t2 u h2wf
  have horder : t3.order = u.order.getD t0.order := by
    rw [h3ord, h2ord, h1ord]
  refine ⟨t3, ?_, ?_, h3wf⟩
  · simp only [TaskService.applyUpdates, h1, h2, h3]
  · exact ⟨h3id.trans (h2id.trans h1id),
      h3ca.trans (h2ca.trans h1ca), h3comp.trans h2comp,
      horder, h3title.trans (h2title.trans h1title)⟩

/-- **C6**: `updateTask` behaviour.  For an absent id the call fails
with `NotFound` and changes nothing; for a present id with well-formed
stored task, the three field updates are applied in the fixed order
title / completed-toggle (only when the requested value is defined and
differs from the current task's) / order, producing a final task that
preserves `id` and `createdAt` and carries the requested field values
(`UpdatedFields`), and the method persists exactly that final task
through a single repository `save` (whose outcome the service wraps). -/
theorem c6_updateTask_behaviour (env : Env) (ok : Bool) (st : RepoState)
    (taskId id2 : JStr) (u : TaskService.TaskUpdates) (t0 : Task)
    (habs : mapGet st.tasks id2 = none)
    (hpres : mapGet st.tasks taskId = some t0)
    (hwf0 : t0.WF)
    (ht : u.title.all validTitleInput = true) :
    TaskService.updateTask env ok st id2 u
      = (.error (.notFound "Task nao encontrada"), st) ∧
    ∃ tf, UpdatedFields t0 u tf ∧
      TaskService.applyUpdates env t0 u = .ok tf ∧
      TaskService.updateTask env ok st taskId u
        = TaskService.saveWrapped (TaskRepository.save ok st tf) := by
  constructor
  · simp [TaskService.updateTask, TaskService.ensureTaskExists,
      TaskRepository.findById, habs]
  · obtain ⟨tf, heq, hfields, _⟩ := applyUpdates_of_wf env t0 u hwf0 ht
    refine ⟨tf, hfields, heq, ?_⟩
    simp [TaskService.updateTask, TaskService.ensureTaskExists,
      TaskRepository.findById, hpres, heq]

/-- Witness for C6 on the concrete three-task state: updating the
present id "a" with a new title, a completion flip and a new order, and
the absent id "missing". -/
theorem c6_updateTask_behaviour_witness :
    TaskService.updateTask (wEnvs 0) true wState3 ("missing".toList)
        { title := some (.str ("  New  ".toList)), completed := some true,
          order := some 7 }
      = (.error (.notFound "Task nao encontrada"), wState3) ∧
    ∃ tf, UpdatedFields wTask1
        { title := some (.str ("  New  ".toList)), completed := some true,
          order := some 7 } tf ∧
      TaskService.applyUpdates (wEnvs 0) wTask1
        { title := some (.str ("  New  ".toList)), completed := some true,
          order := some 7 } = .ok tf ∧
      TaskService.updateTask (wEnvs 0) true wState3 wTask1.id
          { title := some (.str ("  New  ".toList)), completed := some true,
            order := some 7 }
        = TaskService.saveWrapped
            (TaskRepository.save true wState3 tf) :=
  c6_updateTask_behaviour (wEnvs 0) true wState3 wTask1.id ("missing".toList)
    { title := some (.str ("  New  ".toList)), completed := some true,
      order := some 7 } wTask1
    (by decide) (by decide) (by decide) (by decide)

end TodoApp



